import Mathlib

/-!
Verification of the VoxAula content-server core services against their
natural-language specification.  The definitions below are a shallow
embedding of the JavaScript sources:

* `MetadataService.js`  — the durable catalog (files, active jobs, history)
* `FFmpegService.js`    — the encoding job manager (direct-spawn revision)
* `RadioService.js`     — the playback sequencer
* `JanusService.js`     — the streaming protocol client
* `FileImportService.js`— the adaptive import monitor (adaptive revision)

Wall-clock timestamps, process ids, log sinks and the audio-tag metadata
extracted by the external parser are not modelled: no claim depends on
them.  Filesystem and network effects are passed in as explicit
parameters (the result of `fs.pathExists`, the gateway answers), since
they are external to the program.
-/

namespace VoxAula

/-- Status of an audio asset in the catalog
(`MetadataService.addFile`: `status: 'uploaded', // uploaded|encoding|completed|failed`). -/
inductive FStatus where
  | uploaded
  | encoding
  | completed
  | failed
  deriving DecidableEq, Repr

/-- One catalog record, as built by `MetadataService.addFile`.  The fields the
claims depend on are kept; upload dates, mime type, size bookkeeping and the
audio-tag metadata block are omitted (wall clock / external parser). -/
structure MFile where
  id : String
  originalName : String
  originalPath : String
  encodedPath : Option String := none
  status : FStatus := .uploaded
  progress : Nat := 0
  error : Option String := none
  retryCount : Nat := 0
  logs : List String := []
  deriving DecidableEq, Repr

/-- A partial update as passed to `MetadataService.updateFile` and merged with
`Object.assign`: `none` means the key is absent from the update object. -/
structure FileUpdate where
  status : Option FStatus := none
  progress : Option Nat := none
  error : Option (Option String) := none
  encodedPath : Option (Option String) := none
  retryCount : Option Nat := none
  deriving Repr

/-- Object.assign of a partial update onto a file record (`updateFile`). -/
def MFile.applyUpdate (f : MFile) (u : FileUpdate) : MFile :=
  { f with
    status := u.status.getD f.status
    progress := u.progress.getD f.progress
    error := u.error.getD f.error
    encodedPath := u.encodedPath.getD f.encodedPath
    retryCount := u.retryCount.getD f.retryCount }

/-- One persisted encoding-job record (`MetadataService.addActiveJob`).
Timestamps and subprocess ids are omitted. -/
structure MJob where
  id : String
  fileId : String
  progress : Nat := 0
  status : String := "active"
  deriving DecidableEq, Repr

/-- The durable database held by `MetadataService` (`data.files`,
`data.activeJobs`, `data.jobHistory`).  Radio state and configuration are
modelled inside the respective service states. -/
structure MDB where
  files : List MFile := []
  activeJobs : List MJob := []
  jobHistory : List MJob := []
  deriving DecidableEq, Repr

/-- `MetadataService.getFile`: first record with the given id (`Array.find`). -/
def MDB.getFile (db : MDB) (fileId : String) : Option MFile :=
  db.files.find? (fun f => f.id = fileId)

/-- `MetadataService.getFileByPath`: first record with the given original path. -/
def MDB.getFileByPath (db : MDB) (p : String) : Option MFile :=
  db.files.find? (fun f => f.originalPath = p)

/-- `MetadataService.addFile`: push a fresh record (status uploaded, progress 0)
and return it.  The caller supplies the id (the source draws a fresh uuid when
the input record carries none). -/
def MDB.addFile (db : MDB) (fileId originalName originalPath : String) : MFile × MDB :=
  let r : MFile := { id := fileId, originalName := originalName, originalPath := originalPath }
  (r, { db with files := db.files ++ [r] })

/-- Helper: rewrite the first record with the given id, as the source does via
`findIndex` followed by in-place mutation. -/
def replaceFirstFile (fs : List MFile) (fileId : String) (g : MFile → MFile) : List MFile :=
  match fs with
  | [] => []
  | f :: rest => if f.id = fileId then g f :: rest else f :: replaceFirstFile rest fileId g

/-- `MetadataService.updateFile`: throws (`.error`) when no record has the id,
otherwise merges the partial update into the first matching record. -/
def MDB.updateFile (db : MDB) (fileId : String) (u : FileUpdate) : Except String MDB :=
  if (db.files.find? (fun f => f.id = fileId)).isSome then
    .ok { db with files := replaceFirstFile db.files fileId (fun f => f.applyUpdate u) }
  else
    .error ("File not found: " ++ fileId)

/-- `MetadataService.addLog`: append a log line to the first matching record,
keeping the last 50 entries; silently a no-op when the file is absent. -/
def MDB.addLog (db : MDB) (fileId msg : String) : MDB :=
  { db with
    files := replaceFirstFile db.files fileId (fun f =>
      let l := f.logs ++ [msg]
      { f with logs := l.drop (l.length - 50) }) }

/-- `MetadataService.addActiveJob`: drop every job for the same fileId, then
push the new job. -/
def MDB.addActiveJob (db : MDB) (j : MJob) : MDB :=
  { db with activeJobs := (db.activeJobs.filter (fun k => k.fileId != j.fileId)) ++ [j] }

/-- Helper: rewrite the first job with the given fileId (`findIndex` + mutate). -/
def replaceFirstJob (js : List MJob) (fileId : String) (g : MJob → MJob) : List MJob :=
  match js with
  | [] => []
  | j :: rest => if j.fileId = fileId then g j :: rest else j :: replaceFirstJob rest fileId g

/-- `MetadataService.updateActiveJob`, restricted to the status field (the only
job field the claims observe); a no-op when no job matches. -/
def MDB.updateActiveJob (db : MDB) (fileId newStatus : String) : MDB :=
  { db with activeJobs := replaceFirstJob db.activeJobs fileId (fun j => { j with status := newStatus }) }

/-- `MetadataService.removeActiveJob`: move the first matching job to the
history ring (most recent first, capped at 100) with the reason as its final
status; a no-op when no job matches. -/
def MDB.removeActiveJob (db : MDB) (fileId reason : String) : MDB :=
  match db.activeJobs.find? (fun j => j.fileId = fileId) with
  | none => db
  | some j =>
    { db with
      activeJobs := db.activeJobs.eraseP (fun k => k.fileId = fileId)
      jobHistory := (({ j with status := reason } : MJob) :: db.jobHistory).take 100 }

/-- `MetadataService.getIncompleteJobs`: files whose status is encoding and for
which no active job record exists. -/
def MDB.getIncompleteJobs (db : MDB) : List MFile :=
  db.files.filter (fun f =>
    decide (f.status = FStatus.encoding ∧ f.id ∉ db.activeJobs.map MJob.fileId))

end VoxAula

namespace VoxAula

/-! ## Claim C9 — addFile / getFileByPath round trip -/

/-- Catalog with one record already stored under path `/p` (id `A`). -/
def c9db : MDB :=
  { files := [{ id := "A", originalName := "a.mp3", originalPath := "/p" }] }

end VoxAula

namespace VoxAula

/-! ## Encoding Job Manager (`FFmpegService.js`, direct-spawn revision) -/

/-- Events emitted by `FFmpegService` on the `file-updates` notification room.
`encoding-progress` events are omitted (their timing depends on the subprocess
diagnostic stream, which no claim observes). -/
inductive FEvent where
  | encodingCompleted (fileId : String)
  | encodingFailed (fileId : String) (msg : String)
  | encodingCancelled (fileId : String)
  | encodingReset (fileId : String)
  deriving DecidableEq, Repr

/-- State of `FFmpegService`: the shared catalog database, the in-memory
`activeJobs` Map (modelled by its key list in insertion order — each value also
holds the live subprocess handle, which is why a key in this list means a live
encode subprocess), the concurrency ceiling, the emitted events, and whether
the job-recovery task started by the constructor is still pending (the
constructor calls `initializeJobRecovery()` without awaiting it). -/
structure FFState where
  db : MDB
  memJobs : List String
  maxConcurrent : Nat
  events : List FEvent
  recoveryPending : Bool
  deriving DecidableEq, Repr

/-- Map.set semantics for the in-memory job map keys. -/
def memInsert (l : List String) (x : String) : List String :=
  if x ∈ l then l else l ++ [x]

/-- The two admission checks at the top of `encodeFile` (lines 129–136).  They
run synchronously — there is no await between them — and return the message of
the error thrown, if any.  Every later step of `encodeFile` sits behind at
least one await. -/
def encodeAdmission (st : FFState) (fileId : String) : Option String :=
  if fileId ∈ st.memJobs then some "File is already being encoded"
  else if st.maxConcurrent ≤ st.memJobs.length then some "Maximum concurrent encoding limit reached"
  else none

/-- The `catch` and `finally` blocks of `encodeFile` (lines 213–250): mark the
asset failed with the error detail, log, move the persisted job to history as
failed, emit `encoding-failed`, re-throw, and drop the in-memory map entry.
When the asset record is missing, `updateFile` itself throws inside the catch:
the log/remove/emit steps are skipped, the `finally` delete still runs, and the
propagated message is the one `updateFile` threw.  Returns the new state and
the propagated error message. -/
def encodeCatch (st : FFState) (fileId msg : String) : FFState × String :=
  match st.db.updateFile fileId { status := some .failed, error := some (some msg) } with
  | .error e => ({ st with memJobs := st.memJobs.erase fileId }, e)
  | .ok db1 =>
    let db2 := db1.addLog fileId "Encoding failed"
    let db3 := db2.removeActiveJob fileId "failed"
    ({ st with
        db := db3
        events := st.events ++ [.encodingFailed fileId msg]
        memJobs := st.memJobs.erase fileId }, msg)

/-- The state changes `encodeFile` performs between its admission checks and
the subprocess spawn (lines 157–171 and 325–349): set the asset to
encoding/progress 0/error null, persist a new active-job record, insert the
in-memory map entry when the subprocess is spawned, and mark the persisted job
running.  In the source these steps are separated from the admission checks by
several awaits.  Audio-tag metadata extraction (best-effort, logged only) is
omitted.  The updateFile error branch is unreachable when the asset was just
found and is mapped to the identity. -/
def encodeRegister (st : FFState) (fileId jobId : String) : FFState :=
  match st.db.updateFile fileId { status := some .encoding, progress := some 0, error := some none } with
  | .error _ => st
  | .ok db1 =>
    let db2 := db1.addActiveJob { id := jobId, fileId := fileId }
    let db3 := db2.updateActiveJob fileId "running"
    { st with db := db3, memJobs := memInsert st.memJobs fileId }

/-- The first half of `encodeFile` (lines 126–177), up to the point where the
encode subprocess is running: admission checks, asset lookup and validation
(the caller supplies the result of `fs.pathExists` on the source file), then
registration.  Any rejection takes the catch/finally path. -/
def encodeStart (st : FFState) (fileId : String) (srcExists : Bool) (jobId : String) :
    Except String Unit × FFState :=
  match encodeAdmission st fileId with
  | some msg => let r := encodeCatch st fileId msg; (.error r.2, r.1)
  | none =>
    match st.db.getFile fileId with
    | none => let r := encodeCatch st fileId "File not found"; (.error r.2, r.1)
    | some f =>
      if f.status = FStatus.completed then
        let r := encodeCatch st fileId "File is already encoded"; (.error r.2, r.1)
      else if srcExists = false then
        let r := encodeCatch st fileId "Original file not found on disk"; (.error r.2, r.1)
      else
        (.ok (), encodeRegister st fileId jobId)

/-- The second half of `encodeFile` (lines 179–250), entered when the encode
subprocess exits.  On a clean exit with a non-empty output (`ok = true`): mark
completed, log, move the job to history, emit `encoding-completed`, and drop
the map entry.  Any other outcome takes the catch path. -/
def encodeFinish (st : FFState) (fileId : String) (ok : Bool) (outputPath : String) : FFState :=
  if ok then
    match st.db.updateFile fileId
        { status := some .completed, progress := some 100
          encodedPath := some (some outputPath), error := some none } with
    | .error e => (encodeCatch st fileId e).1
    | .ok db1 =>
      let db2 := db1.addLog fileId "Encoding completed successfully"
      let db3 := db2.removeActiveJob fileId "completed"
      { st with
          db := db3
          events := st.events ++ [.encodingCompleted fileId]
          memJobs := st.memJobs.erase fileId }
  else
    (encodeCatch st fileId "FFmpeg exited with error").1

/-- `FFmpegService.cancelEncoding` (lines 525–574): a no-op returning false
when the in-memory map holds no entry for the fileId (every stored entry
carries its process handle, so the `job && job.process` test is equivalent);
otherwise terminate the subprocess, drop the map entry, mark the persisted job
cancelled, revert the asset to uploaded with a cancellation note, log, move the
job to history, emit `encoding-cancelled`, and return true. -/
def cancelEncoding (st : FFState) (fileId : String) : Except String Bool × FFState :=
  if fileId ∈ st.memJobs then
    let st1 := { st with memJobs := st.memJobs.erase fileId }
    let db1 := st1.db.updateActiveJob fileId "cancelled"
    match db1.updateFile fileId
        { status := some .uploaded, progress := some 0
          error := some (some "Encoding cancelled by user") } with
    | .error e => (.error e, { st1 with db := db1 })
    | .ok db2 =>
      let db3 := db2.addLog fileId "Encoding cancelled by user"
      let db4 := db3.removeActiveJob fileId "cancelled"
      (.ok true, { st1 with db := db4, events := st1.events ++ [.encodingCancelled fileId] })
  else
    (.ok false, st)

/-- `FFmpegService.retryEncoding` (lines 599–626): rejected when the asset is
missing or currently encoding; otherwise reset it to uploaded with an
incremented retry count, log, and re-enter `encodeFile`. -/
def retryEncoding (st : FFState) (fileId : String) (srcExists : Bool) (jobId : String) :
    Except String Unit × FFState :=
  match st.db.getFile fileId with
  | none => (.error "File not found", st)
  | some f =>
    if f.status = FStatus.encoding then (.error "File is currently being encoded", st)
    else
      match st.db.updateFile fileId
          { status := some .uploaded, progress := some 0
            error := some none, retryCount := some (f.retryCount + 1) } with
      | .error e => (.error e, st)
      | .ok db1 =>
        let db2 := db1.addLog fileId "Encoding retry attempt"
        encodeStart { st with db := db2 } fileId srcExists jobId

/-- The diagnostic note written by startup job recovery. -/
def resetNote : String := "Encoding was interrupted by server restart"

/-- The reset loop of `initializeJobRecovery` (lines 83–107).  The loop body
awaits `updateFile`; if that ever threw, the surrounding try/catch would abort
the remaining resets and skip the event emission, which the Bool records —
on the loop's own input (files taken from the catalog) it cannot happen. -/
def recoveryLoop (db : MDB) : List MFile → MDB × Bool
  | [] => (db, true)
  | f :: rest =>
    match db.updateFile f.id { status := some .uploaded, progress := some 0, error := some (some resetNote) } with
    | .error _ => (db, false)
    | .ok db1 => recoveryLoop (db1.addLog f.id "Encoding job reset due to server restart") rest

/-- `FFmpegService.initializeJobRecovery` (lines 72–124): reset every asset
that is marked encoding but has no active-job record, then emit one
`encoding-reset` event per reset asset. -/
def jobRecovery (st : FFState) : FFState :=
  let incomplete := st.db.getIncompleteJobs
  match recoveryLoop st.db incomplete with
  | (db1, true) =>
    { st with
        db := db1
        events := st.events ++ incomplete.map (fun f => FEvent.encodingReset f.id)
        recoveryPending := false }
  | (db1, false) => { st with db := db1, recoveryPending := false }

/-- Construction of `FFmpegService` (constructor, lines 50–64): empty in-memory
map, ceiling from the environment, and the recovery task started but not
awaited — nothing of the recovery body has executed yet beyond a log line, so
it is recorded as pending. -/
def constructFF (db : MDB) (maxConcurrent : Nat) : FFState :=
  { db := db, memJobs := [], maxConcurrent := maxConcurrent, events := [], recoveryPending := true }

end VoxAula

namespace VoxAula

/-! ## Job-manager operation sequences (for the C1 invariant) -/

/-- One atomic job-manager operation: the start half of an encode, the finish
half (fired when the subprocess exits), a cancellation, or a retry. -/
inductive JOp where
  | startE (fileId : String) (srcExists : Bool) (jobId : String)
  | finishE (fileId : String) (ok : Bool) (outputPath : String)
  | cancelE (fileId : String)
  | retryE (fileId : String) (srcExists : Bool) (jobId : String)
  deriving DecidableEq, Repr

/-- Apply one job-manager operation to the service state. -/
def applyJOp (st : FFState) : JOp → FFState
  | .startE f s j => (encodeStart st f s j).2
  | .finishE f ok o => encodeFinish st f ok o
  | .cancelE f => (cancelEncoding st f).2
  | .retryE f s j => (retryEncoding st f s j).2

/-- Run a sequence of job-manager operations. -/
def runJOps (st : FFState) (ops : List JOp) : FFState :=
  ops.foldl applyJOp st

/-- The job-manager invariant claimed by the spec: at most one persisted
active-job record per fileId, at most one in-memory map entry per fileId, and
the in-memory running-job count within the concurrency ceiling. -/
def JobInv (st : FFState) : Prop :=
  (st.db.activeJobs.map MJob.fileId).Nodup ∧
  st.memJobs.Nodup ∧
  st.memJobs.length ≤ st.maxConcurrent

/-! ## Interleaved execution (for the C1 and C3 counterexamples)

`encodeFile` is async: its admission checks run synchronously when the call
starts, but registration (asset update, job record, in-memory map entry,
subprocess spawn) happens only after several awaits, each a suspension point
of the event loop.  Two calls whose admission checks both run before either
registration — e.g. issued by two concurrent HTTP requests, or by
`FileImportService.triggerAutoEncoding`, which starts one unawaited
`encodeFile` per eligible upload in a synchronous loop — therefore both pass
admission against the same state.  Likewise the constructor starts
`initializeJobRecovery()` without awaiting it, so an encode call can be
admitted while the recovery resets are still pending. -/

/-- A pending event-loop task of the job manager. -/
inductive AsyncOp where
  | runRecovery
  | encode (fileId : String) (srcExists : Bool) (jobId : String)
  deriving DecidableEq, Repr

/-- Run one pending task to completion. -/
def asyncStep (st : FFState) : AsyncOp → FFState
  | .runRecovery => jobRecovery st
  | .encode f s j => (encodeStart st f s j).2

/-- Catalog used for the C1 race: two uploaded assets, sources on disk. -/
def c1db : MDB :=
  { files := [{ id := "f1", originalName := "one.mp3", originalPath := "/in/one.mp3" },
              { id := "f2", originalName := "two.mp3", originalPath := "/in/two.mp3" }] }

/-- Job manager with concurrency ceiling 1 over `c1db`, recovery already done. -/
def c1s0 : FFState :=
  { db := c1db, memJobs := [], maxConcurrent := 1, events := [], recoveryPending := false }

/-- The interleaving: both admissions run on `c1s0` (each passes), then both
registrations run.  This is the schedule produced by two concurrent
`encodeFile` calls that suspend at their first await after admission. -/
def c1race : FFState :=
  encodeRegister (encodeRegister c1s0 "f1" "j1") "f2" "j2"

/-- Catalog used for the C3 counterexample: asset X orphaned in encoding
status with no job record, asset Y freshly uploaded. -/
def c3db : MDB :=
  { files := [{ id := "X", originalName := "x.mp3", originalPath := "/in/x.mp3", status := .encoding },
              { id := "Y", originalName := "y.mp3", originalPath := "/in/y.mp3" }] }

/-- The C3 execution: construct the service (recovery pending), then run an
encode task before the recovery task. -/
def c3s1 : FFState :=
  asyncStep (constructFF c3db 1) (.encode "Y" true "j1")

end VoxAula

namespace VoxAula

/-! ## Playback Sequencer (`RadioService.js`) -/

/-- Persisted radio status (`radio.status` in the database, written through
`updateRadioState`). -/
inductive RStatus where
  | stopped
  | starting
  | playing
  | stopping
  deriving DecidableEq, Repr

/-- Events emitted by `RadioService` on the notification bus. -/
inductive REvent where
  | radioStarted
  | radioStopped
  | radioTrackChanged (trackId : String)
  | radioTrackError (trackId : String) (skipCount : Nat)
  deriving DecidableEq, Repr

/-- A playlist entry: a completed catalog record together with the result of
`fs.pathExists` on its encoded file (the filesystem is external, so the check
result is carried as a field). -/
structure Track where
  id : String
  originalName : String
  encodedPath : String
  onDisk : Bool
  deriving DecidableEq, Repr

/-- The RTP destination returned by the protocol client. -/
structure RtpTarget where
  ip : String
  port : Nat
  ssrc : Nat
  deriving DecidableEq, Repr

/-- State of `RadioService`.  `ffmpegActive` models `this.ffmpegProcess ≠
null`; `trackWrites` records the `metadataService.updateFile(track.id,
{status: failed, error})` calls made by `handleTrackError` (each pair is the
asset id and the error message written) — for a track taken from the playlist
the asset exists, so that call cannot throw. -/
structure RState where
  isRunning : Bool
  isStopping : Bool
  playlist : List Track
  currentIndex : Nat
  currentTrack : Option Track
  skipCount : Nat
  maxConsecutiveSkips : Nat
  ffmpegActive : Bool
  rtpTarget : Option RtpTarget
  status : RStatus
  trackWrites : List (String × String)
  events : List REvent
  deriving DecidableEq, Repr

/-- `RadioService.stop` (lines 132–216): mark stopping, terminate the stream
subprocess, tear down the protocol session, clear the current track, clear the
stopping flag again, persist the stopped status, and emit one `radio-stopped`
event; rejected when neither running nor stopping. -/
def rstop (s : RState) : RState :=
  if s.isRunning = false ∧ s.isStopping = false then s
  else
    let s1 := { s with isStopping := true, isRunning := false, status := .stopping }
    let s2 := { s1 with ffmpegActive := false }
    let s3 := { s2 with rtpTarget := none }
    let s4 := { s3 with currentTrack := none, isStopping := false, status := .stopped }
    { s4 with events := s4.events ++ [.radioStopped] }

/-- `RadioService.handleTrackError` (lines 509–544): bump the consecutive-skip
counter, mark the asset failed with the playback error, and emit a
`radio-track-error` event carrying the new counter; when the radio is still
running and not stopping it then schedules one `playNextTrack` callback after
a one-second backoff (the scheduling itself is the driver of `playNextTrack`
below). -/
def handleTrackError (s : RState) (t : Track) (msg : String) : RState :=
  { s with
      skipCount := s.skipCount + 1
      trackWrites := s.trackWrites ++ [(t.id, "Radio playback failed: " ++ msg)]
      events := s.events ++ [.radioTrackError t.id (s.skipCount + 1)] }

/-- `RadioService.spawnFFmpegForTrack` (lines 388–452): a missing track file
or a missing RTP target routes to `handleTrackError`; otherwise the stream
subprocess is spawned, the current track set, the skip counter reset, the
playing status persisted and a `radio-track-changed` event emitted. -/
def spawnFFmpegForTrack (s : RState) (t : Track) : RState :=
  if t.onDisk = false then handleTrackError s t "File not found on disk"
  else
    match s.rtpTarget with
    | none => handleTrackError s t "Janus session not established"
    | some _ =>
      { s with
          ffmpegActive := true
          currentTrack := some t
          skipCount := 0
          status := .playing
          events := s.events ++ [.radioTrackChanged t.id] }


/-- `RadioService.playNextTrack` (lines 347–383): no-op while stopping or not
running; full stop when the consecutive-skip ceiling is reached or the
playlist is empty; wrap to the start (resetting the skip counter) at the end
of the list; then play the track at the current index and advance the index. -/
def playNextTrack (s : RState) : RState :=
  if s.isStopping = true ∨ s.isRunning = false then s
  else if s.maxConsecutiveSkips ≤ s.skipCount then rstop s
  else if s.playlist.length = 0 then rstop s
  else
    let s1 := if s.playlist.length ≤ s.currentIndex then { s with currentIndex := 0, skipCount := 0 } else s
    match s1.playlist.get? s1.currentIndex with
    | none => s1
    | some t => spawnFFmpegForTrack { s1 with currentIndex := s1.currentIndex + 1 } t

/-- Session-establishment attempts recorded by `RadioService.start`. -/
inductive RAction where
  | establishJanus
  | janusCleanup
  deriving DecidableEq, Repr

/-- `RadioService.start` (lines 64–127): rejected immediately while already
running, before any protocol-client call; otherwise establish the protocol
session (outcome supplied by the caller, since the gateway is external),
rebuild the playlist from the catalog (`validated` is the refreshed list of
completed-and-on-disk tracks, shuffled nondeterministically in the source),
abort with cleanup when it is empty, else mark running, reset the skip
counter, play the first track, and emit `radio-started`.  The returned list
records which protocol-client calls were attempted. -/
def rstart (s : RState) (janusResult : Except String RtpTarget) (validated : List Track) :
    (Bool × String) × RState × List RAction :=
  if s.isRunning = true then
    ((false, "Radio is already running"), s, [])
  else
    match janusResult with
    | .error e => ((false, "Janus connection failed: " ++ e), s, [.establishJanus])
    | .ok rtp =>
      let s1 := { s with rtpTarget := some rtp, playlist := validated, currentIndex := 0 }
      if validated.length = 0 then
        ((false, "No encoded files available for streaming"),
          { s1 with rtpTarget := none }, [.establishJanus, .janusCleanup])
      else
        let s2 := { s1 with isRunning := true, isStopping := false, skipCount := 0, status := .starting }
        let s3 := playNextTrack s2
        ((true, "Radio started successfully"),
          { s3 with events := s3.events ++ [.radioStarted] }, [.establishJanus])

end VoxAula

namespace VoxAula

/-! ## Streaming Protocol Client (`JanusService.js`) -/

/-- HTTP requests the client can issue to the gateway.  Poll GETs are not
recorded (no claim observes them). -/
inductive JReq where
  | createReq
  | attachReq
  | joinReq
  | keepaliveReq
  | leaveReq
  | destroyReq
  deriving DecidableEq, Repr

/-- State of `JanusService`.  `requests` is the log of requests issued so far;
`keepaliveActive` models the presence of the keepalive timer. -/
structure JState where
  sessionId : Option Nat := none
  handleId : Option Nat := none
  participantId : Option Nat := none
  rtpDetails : Option RtpTarget := none
  keepaliveActive : Bool := false
  keepaliveFailureCount : Nat := 0
  requests : List JReq := []
  deriving DecidableEq, Repr

/-- Plugin payload of an AudioBridge event. -/
inductive BridgeData where
  | joined (pid : Nat) (rtpPort : Option Nat)
  | bridgeError (msg : String)
  | otherEvent (kind : String)
  deriving DecidableEq, Repr

/-- One answer observed while polling the session endpoint: the awaited kind
of answer (an event tagged with a transaction id), no pending event (HTTP
204), some other answer, or a transport failure (logged, the loop continues).
The event-loop answer list is finite because the poll loop gives up after the
30-second deadline (one 500 ms-spaced attempt per answer). -/
inductive PollAns where
  | eventFor (tid : String) (dat : BridgeData)
  | noContent
  | otherAnswer
  | pollFail
  deriving DecidableEq, Repr

/-- `JanusService.pollForEvent` (lines 386–432): poll until an event matching
the transaction id arrives; every other answer just continues the loop; when
the answers are exhausted the 30-second deadline has passed and the timeout
error is thrown. -/
def pollForEvent (tid : String) : List PollAns → Except String BridgeData
  | [] => .error "Timeout waiting for join event (30000ms)"
  | .eventFor t dat :: rest => if t = tid then .ok dat else pollForEvent tid rest
  | .noContent :: rest => pollForEvent tid rest
  | .otherAnswer :: rest => pollForEvent tid rest
  | .pollFail :: rest => pollForEvent tid rest

/-- A gateway answer to one of the client's POST requests. -/
inductive JAns where
  | success (newId : Nat)
  | ack
  | eventAns (dat : BridgeData)
  | errorAns (reason : String)
  | transportFail (status : Option Nat)
  deriving DecidableEq, Repr

/-- `JanusService.createSession` (lines 190–214).  Returns the new state and
the thrown message, if any (the per-error detail suffix of
`getSafeErrorMessage` is elided: no claim observes it). -/
def createSession (st : JState) (ans : JAns) : JState × Option String :=
  let st1 := { st with requests := st.requests ++ [JReq.createReq] }
  match ans with
  | .success i => ({ st1 with sessionId := some i }, none)
  | _ => (st1, some "Session creation failed")

/-- `JanusService.attachPlugin` (lines 219–244). -/
def attachPlugin (st : JState) (ans : JAns) : JState × Option String :=
  let st1 := { st with requests := st.requests ++ [JReq.attachReq] }
  match ans with
  | .success i => ({ st1 with handleId := some i }, none)
  | _ => (st1, some "Plugin attachment failed")

/-- `JanusService.joinRoom` (lines 249–381): send the join request; on a bare
acknowledgement poll for the event matching the transaction id; a joined
result sets the participant id and the RTP destination (gateway port,
defaulting to 50000); every failure is rethrown with the message the source
builds on that path. -/
def joinRoom (st : JState) (roomId ip : String) (ssrc : Nat) (tid : String)
    (ans : JAns) (polls : List PollAns) : JState × Option String :=
  let st1 := { st with requests := st.requests ++ [JReq.joinReq] }
  match ans with
  | .ack =>
    match pollForEvent tid polls with
    | .ok (.joined pid port) =>
      ({ st1 with participantId := some pid
                  rtpDetails := some { ip := ip, port := port.getD 50000, ssrc := ssrc } }, none)
    | .ok (.bridgeError m) => (st1, some ("AudioBridge error: " ++ m))
    | .ok (.otherEvent k) => (st1, some ("Room join failed: Unexpected event response: " ++ k))
    | .error e => (st1, some ("Room join failed: " ++ e))
  | .eventAns (.joined pid port) =>
    ({ st1 with participantId := some pid
                rtpDetails := some { ip := ip, port := port.getD 50000, ssrc := ssrc } }, none)
  | .eventAns (.bridgeError m) => (st1, some ("AudioBridge error: " ++ m))
  | .eventAns (.otherEvent _) => (st1, none)
  | .errorAns r => (st1, some ("Room join failed: Janus error: " ++ r))
  | .success _ => (st1, some ("Room join failed: Unexpected response type: success"))
  | .transportFail (some 404) => (st1, some ("Room " ++ roomId ++ " not found on Janus server"))
  | .transportFail (some 403) => (st1, some ("Access denied to room " ++ roomId ++ " - check credentials"))
  | .transportFail _ => (st1, some "Room join failed: request failed")

/-- `JanusService.startKeepalive` (lines 66–79): install the keepalive timer. -/
def startKeepalive (st : JState) : JState :=
  { st with keepaliveActive := true }

/-- `JanusService.stopKeepalive` (lines 137–143). -/
def stopKeepalive (st : JState) : JState :=
  { st with keepaliveActive := false }

/-- `JanusService.cleanup` (lines 459–503): stop the keepalive timer; when a
session and a handle exist, attempt leave only if a participant id was
established, then attempt destroy; both attempts are best-effort (their
outcome does not alter the state); finally clear every session field
unconditionally. -/
def cleanup (st : JState) : JState :=
  let st1 := stopKeepalive st
  let st2 :=
    if st1.sessionId.isSome ∧ st1.handleId.isSome then
      let stL :=
        if st1.participantId.isSome then { st1 with requests := st1.requests ++ [JReq.leaveReq] }
        else st1
      { stL with requests := stL.requests ++ [JReq.destroyReq] }
    else st1
  { st2 with
      sessionId := none, handleId := none, participantId := none
      rtpDetails := none, keepaliveFailureCount := 0 }

/-- The gateway answers consumed by one `establishSession` run. -/
structure GatewayScript where
  createAns : JAns
  attachAns : JAns
  joinAns : JAns
  polls : List PollAns
  deriving DecidableEq, Repr

/-- `JanusService.establishSession` (lines 148–185): create, attach, join,
then start the keepalive; on any failure run `cleanup` and rethrow the message
prefixed with `Janus connection failed: `.  The success value is the RTP
destination (which the fall-through quirk of `joinRoom` can leave `none`). -/
def establishSession (st : JState) (roomId ip : String) (ssrc : Nat) (tid : String)
    (g : GatewayScript) : Except String (Option RtpTarget) × JState :=
  let (st1, e1) := createSession st g.createAns
  match e1 with
  | some m => (.error ("Janus connection failed: " ++ m), cleanup st1)
  | none =>
    let (st2, e2) := attachPlugin st1 g.attachAns
    match e2 with
    | some m => (.error ("Janus connection failed: " ++ m), cleanup st2)
    | none =>
      let (st3, e3) := joinRoom st2 roomId ip ssrc tid g.joinAns g.polls
      match e3 with
      | some m => (.error ("Janus connection failed: " ++ m), cleanup st3)
      | none => (.ok st3.rtpDetails, startKeepalive st3)

/-- `JanusService.sendKeepalive` (lines 84–132): skipped entirely without an
active session; otherwise one keepalive POST is issued; an `ack` answer resets
the failure counter, any other outcome (non-ack answer or transport failure)
increments it — nothing else: no session field is touched and no teardown
request is issued, even past the `maxKeepaliveFailures` threshold, where the
source only logs and keeps trying. -/
def sendKeepalive (st : JState) (ans : JAns) : JState :=
  match st.sessionId with
  | none => st
  | some _ =>
    let st1 := { st with requests := st.requests ++ [JReq.keepaliveReq] }
    match ans with
    | .ack => { st1 with keepaliveFailureCount := 0 }
    | _ => { st1 with keepaliveFailureCount := st1.keepaliveFailureCount + 1 }

/-- A run of consecutive keepalive ticks with the given gateway answers. -/
def runKeepalives (st : JState) (anss : List JAns) : JState :=
  anss.foldl sendKeepalive st

/-- Gateway script for the C4 counterexample: create and attach succeed, the
join request is acknowledged, but no event matching the join transaction ever
arrives before the 30-second deadline. -/
def c4g : GatewayScript :=
  { createAns := .success 11, attachAns := .success 22, joinAns := .ack
    polls := [.noContent, .noContent] }

/-- The C4 run, from a freshly constructed client. -/
def c4run : Except String (Option RtpTarget) × JState :=
  establishSession {} "3183360752998701" "185.80.51.95" 1234 "t1" c4g

end VoxAula

namespace VoxAula

/-! ## Import Monitor (`FileImportService.js`, adaptive revision) -/

/-- The two monitored directories. -/
inductive DirType where
  | incoming
  | reencoded
  deriving DecidableEq, Repr

/-- The configured scan intervals (constructor, lines 37–48; `normal` and
`disabled` may be overridden from the stored configuration). -/
structure Intervals where
  encodingActive : Nat := 300000
  highActivity : Nat := 30000
  normal : Nat := 120000
  disabled : Nat := 3600000
  activityTimeout : Nat := 180000
  deriving DecidableEq, Repr

/-- The watcher state read by the adaptive interval computation.
`encodingActive` is the value of `ffmpegService.isEncodingActive()`, i.e.
whether the job manager's in-memory map is nonempty. -/
structure ImpState where
  autoImportEnabled : Bool
  autoImportReencodedEnabled : Bool
  recentIncomingActivity : Bool
  recentReencodedActivity : Bool
  intervals : Intervals
  encodingActive : Bool
  deriving DecidableEq, Repr

/-- The per-directory watcher-enabled flag (lines 128–129). -/
def watcherEnabled (st : ImpState) : DirType → Bool
  | .incoming => st.autoImportEnabled
  | .reencoded => st.autoImportReencodedEnabled

/-- The per-directory recent-activity flag (line 130). -/
def recentActivityFlag (st : ImpState) : DirType → Bool
  | .incoming => st.recentIncomingActivity
  | .reencoded => st.recentReencodedActivity

/-- `FileImportService.calculateAdaptiveInterval` (lines 127–151), recomputed
by `performAdaptiveDirectoryScan` at the end of every cycle to schedule the
next one. -/
def calculateAdaptiveInterval (st : ImpState) (directoryType : DirType) : Nat :=
  let autoEnabled := watcherEnabled st directoryType
  let recentActivity := recentActivityFlag st directoryType
  if autoEnabled = false then st.intervals.disabled
  else if st.encodingActive then st.intervals.encodingActive
  else if recentActivity then st.intervals.highActivity
  else st.intervals.normal

/-- Modelled from the spec: the priority-ordered interval selection — disabled
interval if the watcher is off; the encoding-active (slow) interval if the job
manager reports active encoding; the high-activity (fast) interval if recent
activity is flagged; the normal interval otherwise. -/
def specAdaptiveInterval (iv : Intervals) (watcherOn encActive recent : Bool) : Nat :=
  if watcherOn = false then iv.disabled
  else if encActive then iv.encodingActive
  else if recent then iv.highActivity
  else iv.normal

end VoxAula


namespace VoxAula

/-! ## Concrete states and drivers used by the claim theorems and witnesses -/

/-- Job manager busy encoding `f1` (in-memory job present), used as the C10
witness state. -/
def c10st : FFState :=
  { db := { files := [{ id := "f1", originalName := "one.mp3", originalPath := "/in/one.mp3",
                        status := .encoding }]
            activeJobs := [{ id := "j1", fileId := "f1" }] }
    memJobs := ["f1"], maxConcurrent := 1, events := [], recoveryPending := false }

/-- Iterate the scheduled `playNextTrack` callbacks: after a track failure the
error handler schedules exactly one `playNextTrack` (1 s backoff) while the
radio is running and not stopping, so a run of consecutive failures is a chain
of `playNextTrack` calls; once `stop()` has run, `playNextTrack` is a no-op. -/
def playN : Nat → RState → RState
  | 0, s => s
  | n + 1, s => playN n (playNextTrack s)

/-- A playlist entry whose encoded file is missing from disk. -/
def badTrack (i : String) : Track :=
  { id := i, originalName := i, encodedPath := "/enc/" ++ i, onDisk := false }

/-- A running sequencer holding five bad tracks (C2 witness state). -/
def c2s : RState :=
  { isRunning := true, isStopping := false
    playlist := [badTrack "a", badTrack "b", badTrack "c", badTrack "d", badTrack "e"]
    currentIndex := 0, currentTrack := none, skipCount := 0, maxConsecutiveSkips := 5
    ffmpegActive := false, rtpTarget := some { ip := "185.80.51.95", port := 50000, ssrc := 7 }
    status := RStatus.playing, trackWrites := [], events := [] }

/-- A running sequencer (C5 witness state). -/
def c5s : RState :=
  { isRunning := true, isStopping := false
    playlist := [badTrack "a"], currentIndex := 1, currentTrack := some (badTrack "a")
    skipCount := 0, maxConsecutiveSkips := 5, ffmpegActive := true
    rtpTarget := some { ip := "185.80.51.95", port := 50000, ssrc := 7 }
    status := RStatus.playing, trackWrites := [], events := [] }

/-- Client with an established session (C7 witness state). -/
def c7st : JState :=
  { sessionId := some 11, handleId := some 22, participantId := some 33
    rtpDetails := some { ip := "185.80.51.95", port := 50000, ssrc := 7 }
    keepaliveActive := true, keepaliveFailureCount := 0
    requests := [JReq.createReq, JReq.attachReq, JReq.joinReq] }

end VoxAula

namespace VoxAula

/-! ## Helper lemmas about the catalog operations -/

theorem applyUpdate_id (f : MFile) (u : FileUpdate) : (f.applyUpdate u).id = f.id := rfl

theorem find?_replaceFirstFile_self (fs : List MFile) (i : String) (g : MFile → MFile)
    (hg : ∀ f, (g f).id = f.id) :
    (replaceFirstFile fs i g).find? (fun f => f.id = i) = (fs.find? (fun f => f.id = i)).map g := by
  induction fs with
  | nil => simp [replaceFirstFile]
  | cons f rest ih =>
    by_cases h : f.id = i
    · simp [replaceFirstFile, h, List.find?_cons, hg]
    · simp [replaceFirstFile, h, List.find?_cons, ih]

theorem find?_replaceFirstFile_ne (fs : List MFile) (i j : String) (g : MFile → MFile)
    (hg : ∀ f, (g f).id = f.id) (hij : j ≠ i) :
    (replaceFirstFile fs i g).find? (fun f => f.id = j) = fs.find? (fun f => f.id = j) := by
  induction fs with
  | nil => simp [replaceFirstFile]
  | cons f rest ih =>
    by_cases h : f.id = i
    · have hgf : (g f).id = i := by rw [hg]; exact h
      have h1 : ¬ ((g f).id = j) := by rw [hgf]; exact fun e => hij e.symm
      have h2 : ¬ (f.id = j) := by rw [h]; exact fun e => hij e.symm
      have h4 : ¬ (i = j) := fun e => hij e.symm
      simp [replaceFirstFile, h, List.find?_cons, h1, h2, h4, ih]
    · by_cases h3 : f.id = j
      · have h5 : ¬ (j = i) := hij
        simp [replaceFirstFile, h, List.find?_cons, h3, h5]
      · simp [replaceFirstFile, h, List.find?_cons, h3, ih]

theorem map_id_replaceFirstFile (fs : List MFile) (i : String) (g : MFile → MFile)
    (hg : ∀ f, (g f).id = f.id) :
    (replaceFirstFile fs i g).map MFile.id = fs.map MFile.id := by
  induction fs with
  | nil => rfl
  | cons f rest ih =>
    by_cases h : f.id = i
    · simp [replaceFirstFile, h, hg]
    · simp [replaceFirstFile, h, ih]

theorem map_fileId_replaceFirstJob (js : List MJob) (i : String) (g : MJob → MJob)
    (hg : ∀ j, (g j).fileId = j.fileId) :
    (replaceFirstJob js i g).map MJob.fileId = js.map MJob.fileId := by
  induction js with
  | nil => rfl
  | cons j rest ih =>
    by_cases h : j.fileId = i
    · simp [replaceFirstJob, h, hg]
    · simp [replaceFirstJob, h, ih]

theorem updateFile_of_isSome (db : MDB) (i : String) (u : FileUpdate)
    (h : (db.getFile i).isSome = true) :
    db.updateFile i u =
      .ok { db with files := replaceFirstFile db.files i (fun f => f.applyUpdate u) } := by
  unfold MDB.updateFile
  unfold MDB.getFile at h
  rw [if_pos h]

theorem updateFile_ok_parts (db db2 : MDB) (i : String) (u : FileUpdate)
    (h : db.updateFile i u = .ok db2) :
    db2.files = replaceFirstFile db.files i (fun f => f.applyUpdate u) ∧
    db2.activeJobs = db.activeJobs ∧ db2.jobHistory = db.jobHistory := by
  unfold MDB.updateFile at h
  split at h
  · cases h; exact ⟨rfl, rfl, rfl⟩
  · cases h

theorem addLog_activeJobs (db : MDB) (i m : String) : (db.addLog i m).activeJobs = db.activeJobs := rfl

theorem addLog_getFile_map (db : MDB) (i m : String) :
    (db.addLog i m).getFile i =
      (db.getFile i).map (fun f =>
        let l := f.logs ++ [m]
        { f with logs := l.drop (l.length - 50) }) := by
  unfold MDB.addLog MDB.getFile
  exact find?_replaceFirstFile_self _ _ _ (fun f => rfl)

theorem removeActiveJob_files (db : MDB) (i r : String) :
    (db.removeActiveJob i r).files = db.files := by
  unfold MDB.removeActiveJob
  split <;> rfl

theorem removeActiveJob_getFile (db : MDB) (i r j : String) :
    (db.removeActiveJob i r).getFile j = db.getFile j := by
  unfold MDB.getFile
  rw [removeActiveJob_files]

end VoxAula

namespace VoxAula

/-! ## Preservation of the job-manager invariant -/

theorem addActiveJob_nodup (db : MDB) (j : MJob)
    (h : (db.activeJobs.map MJob.fileId).Nodup) :
    (((db.addActiveJob j).activeJobs).map MJob.fileId).Nodup := by
  unfold MDB.addActiveJob
  simp only [List.map_append, List.map_cons, List.map_nil]
  rw [List.nodup_append]
  refine ⟨h.sublist ((List.filter_sublist _).map _), List.nodup_singleton _, ?_⟩
  intro a ha
  simp only [List.mem_map, List.mem_filter] at ha
  obtain ⟨k, ⟨hk1, hk2⟩, hk3⟩ := ha
  simp only [List.mem_singleton]
  intro e
  rw [bne_iff_ne] at hk2
  exact hk2 (by rw [hk3]; exact e)

theorem removeActiveJob_nodup (db : MDB) (i r : String)
    (h : (db.activeJobs.map MJob.fileId).Nodup) :
    (((db.removeActiveJob i r).activeJobs).map MJob.fileId).Nodup := by
  unfold MDB.removeActiveJob
  split
  · exact h
  · exact h.sublist ((List.eraseP_sublist _).map _)

theorem updateActiveJob_map_fileId (db : MDB) (i s2 : String) :
    ((db.updateActiveJob i s2).activeJobs).map MJob.fileId = db.activeJobs.map MJob.fileId := by
  unfold MDB.updateActiveJob
  exact map_fileId_replaceFirstJob _ _ _ (fun j => rfl)

theorem memInsert_nodup (l : List String) (x : String) (h : l.Nodup) :
    (memInsert l x).Nodup := by
  by_cases hx : x ∈ l
  · simpa [memInsert, hx] using h
  · simp only [memInsert, hx, if_false, List.nodup_append]
    exact ⟨h, List.nodup_singleton _, by
      intro a ha
      simp only [List.mem_singleton]
      intro e; subst e; exact hx ha⟩

theorem memInsert_length_of_not_mem (l : List String) (x : String) (hx : x ∉ l) :
    (memInsert l x).length = l.length + 1 := by
  simp [memInsert, hx]

theorem jobInv_encodeCatch (st : FFState) (i m : String) (h : JobInv st) :
    JobInv (encodeCatch st i m).1 := by
  obtain ⟨h1, h2, h3⟩ := h
  unfold encodeCatch
  cases hu : st.db.updateFile i { status := some .failed, error := some (some m) } with
  | error e =>
    exact ⟨h1, h2.erase i, le_trans (List.erase_sublist i st.memJobs).length_le h3⟩
  | ok db1 =>
    obtain ⟨hf, ha, hh⟩ := updateFile_ok_parts _ _ _ _ hu
    refine ⟨?_, h2.erase i, le_trans (List.erase_sublist i st.memJobs).length_le h3⟩
    apply removeActiveJob_nodup
    rw [addLog_activeJobs, ha]
    exact h1

theorem jobInv_encodeRegister (st : FFState) (i j : String) (h : JobInv st)
    (hmem : i ∉ st.memJobs) (hlen : st.memJobs.length < st.maxConcurrent) :
    JobInv (encodeRegister st i j) := by
  obtain ⟨h1, h2, h3⟩ := h
  unfold encodeRegister
  cases hu : st.db.updateFile i { status := some .encoding, progress := some 0, error := some none } with
  | error e => exact ⟨h1, h2, h3⟩
  | ok db1 =>
    obtain ⟨hf, ha, hh⟩ := updateFile_ok_parts _ _ _ _ hu
    refine ⟨?_, memInsert_nodup _ _ h2, ?_⟩
    · rw [updateActiveJob_map_fileId]
      apply addActiveJob_nodup
      rw [ha]; exact h1
    · rw [memInsert_length_of_not_mem _ _ hmem]
      exact hlen

theorem jobInv_encodeStart (st : FFState) (f : String) (se : Bool) (j : String)
    (h : JobInv st) : JobInv (encodeStart st f se j).2 := by
  unfold encodeStart
  cases hadm : encodeAdmission st f with
  | some msg => exact jobInv_encodeCatch st f msg h
  | none =>
    have hmem : f ∉ st.memJobs := by
      unfold encodeAdmission at hadm
      by_cases hx : f ∈ st.memJobs
      · rw [if_pos hx] at hadm; cases hadm
      · exact hx
    have hlen : st.memJobs.length < st.maxConcurrent := by
      unfold encodeAdmission at hadm
      rw [if_neg hmem] at hadm
      by_cases hy : st.maxConcurrent ≤ st.memJobs.length
      · rw [if_pos hy] at hadm; cases hadm
      · exact Nat.lt_of_not_le hy
    cases st.db.getFile f with
    | none => exact jobInv_encodeCatch st f _ h
    | some fl =>
      by_cases hc : fl.status = FStatus.completed
      · simp only [hc, if_true]
        exact jobInv_encodeCatch st f _ h
      · simp only [hc, if_false]
        by_cases hs : se = false
        · simp only [hs, if_true]
          exact jobInv_encodeCatch st f _ h
        · simp only [hs, if_false]
          exact jobInv_encodeRegister st f j h hmem hlen

theorem jobInv_encodeFinish (st : FFState) (f : String) (ok : Bool) (o : String)
    (h : JobInv st) : JobInv (encodeFinish st f ok o) := by
  obtain ⟨h1, h2, h3⟩ := h
  unfold encodeFinish
  by_cases hok : ok
  · simp only [hok, if_true]
    cases hu : st.db.updateFile f
        { status := some .completed, progress := some 100
          encodedPath := some (some o), error := some none } with
    | error e => exact jobInv_encodeCatch st f e ⟨h1, h2, h3⟩
    | ok db1 =>
      obtain ⟨hf, ha, hh⟩ := updateFile_ok_parts _ _ _ _ hu
      refine ⟨?_, h2.erase f, le_trans (List.erase_sublist f st.memJobs).length_le h3⟩
      apply removeActiveJob_nodup
      rw [addLog_activeJobs, ha]
      exact h1
  · simp only [hok, if_false]
    exact jobInv_encodeCatch st f _ ⟨h1, h2, h3⟩

theorem jobInv_cancelEncoding (st : FFState) (f : String) (h : JobInv st) :
    JobInv (cancelEncoding st f).2 := by
  obtain ⟨h1, h2, h3⟩ := h
  unfold cancelEncoding
  by_cases hx : f ∈ st.memJobs
  · simp only [hx, if_true]
    have he : (st.memJobs.erase f).Nodup := h2.erase f
    have hl : (st.memJobs.erase f).length ≤ st.maxConcurrent :=
      le_trans (List.erase_sublist f st.memJobs).length_le h3
    cases hu : (st.db.updateActiveJob f "cancelled").updateFile f
        { status := some .uploaded, progress := some 0
          error := some (some "Encoding cancelled by user") } with
    | error e =>
      refine ⟨?_, he, hl⟩
      rw [updateActiveJob_map_fileId]
      exact h1
    | ok db2 =>
      obtain ⟨hf, ha, hh⟩ := updateFile_ok_parts _ _ _ _ hu
      refine ⟨?_, he, hl⟩
      apply removeActiveJob_nodup
      rw [addLog_activeJobs, ha, updateActiveJob_map_fileId]
      exact h1
  · simp only [hx, if_false]
    exact ⟨h1, h2, h3⟩

theorem jobInv_retryEncoding (st : FFState) (f : String) (se : Bool) (j : String)
    (h : JobInv st) : JobInv (retryEncoding st f se j).2 := by
  unfold retryEncoding
  cases st.db.getFile f with
  | none => exact h
  | some fl =>
    by_cases hc : fl.status = FStatus.encoding
    · simp only [hc, if_true]; exact h
    · simp only [hc, if_false]
      cases hu : st.db.updateFile f
          { status := some .uploaded, progress := some 0
            error := some none, retryCount := some (fl.retryCount + 1) } with
      | error e => exact h
      | ok db1 =>
        obtain ⟨hf, ha, hh⟩ := updateFile_ok_parts _ _ _ _ hu
        apply jobInv_encodeStart
        obtain ⟨h1, h2, h3⟩ := h
        exact ⟨by simpa [addLog_activeJobs, ha] using h1, h2, h3⟩

theorem jobInv_applyJOp (st : FFState) (op : JOp) (h : JobInv st) :
    JobInv (applyJOp st op) := by
  cases op with
  | startE f s j => exact jobInv_encodeStart st f s j h
  | finishE f ok o => exact jobInv_encodeFinish st f ok o h
  | cancelE f => exact jobInv_cancelEncoding st f h
  | retryE f s j => exact jobInv_retryEncoding st f s j h

end VoxAula

namespace VoxAula

/-! ## Claim C1 — job uniqueness and the concurrency ceiling -/

/-- Claim C1 (amended): when the job-manager operations execute atomically —
each encode admission together with its registration, each finish, cancel and
retry running to completion before the next operation starts — every reachable
state keeps at most one active job record per fileId, at most one in-memory
entry per fileId, and the running-encode count within the concurrency ceiling.
Under the actual interleaved execution the ceiling can be exceeded (see
`C1_counterexample`). -/
theorem C1_theorem (st : FFState) (ops : List JOp) (h : JobInv st) :
    JobInv (runJOps st ops) := by
  induction ops generalizing st with
  | nil => exact h
  | cons op rest ih =>
    unfold runJOps
    rw [List.foldl_cons]
    exact ih _ (jobInv_applyJOp st op h)

/-- Witness for C1_theorem at a concrete operation sequence. -/
theorem C1_witness :
    JobInv c1s0 ∧
    JobInv (runJOps c1s0 [JOp.startE "f1" true "j1", JOp.cancelE "f1", JOp.startE "f2" true "j2",
                          JOp.finishE "f2" true "/out/two.opus", JOp.retryE "f1" true "j3"]) :=
  ⟨by unfold JobInv; decide, C1_theorem c1s0 _ (by unfold JobInv; decide)⟩

/-- Claim C1, counterexample: the admission checks of `encodeFile` run
synchronously when a call starts, but registration happens only after several
awaits.  Two calls issued concurrently (e.g. the unawaited per-file
`encodeFile` loop of `FileImportService.triggerAutoEncoding`, or two
simultaneous HTTP encode requests) can both pass admission against the same
state and then both register: with ceiling 1, two encode subprocesses end up
running, so the running-encode count exceeds the configured concurrency
ceiling in a reachable interleaving of encode operations. -/
theorem C1_counterexample :
    encodeAdmission c1s0 "f1" = none ∧
    encodeAdmission c1s0 "f2" = none ∧
    (encodeStart c1s0 "f1" true "j1").1.toOption = some () ∧
    (encodeStart c1s0 "f1" true "j1").2 = encodeRegister c1s0 "f1" "j1" ∧
    ((encodeRegister c1s0 "f1" "j1").db.getFile "f2").map MFile.status = some FStatus.uploaded ∧
    c1race = encodeRegister (encodeRegister c1s0 "f1" "j1") "f2" "j2" ∧
    c1race.maxConcurrent = 1 ∧
    c1race.memJobs = ["f1", "f2"] ∧
    ¬ (c1race.memJobs.length ≤ c1race.maxConcurrent) := by
  decide

/-! ## Claim C6 — cancelEncoding without an active job -/

/-- Claim C6: for every fileId with no in-memory active job, cancelEncoding
returns false and leaves the state — catalog, job records, events — entirely
unchanged. -/
theorem C6_theorem (st : FFState) (fileId : String) (h : fileId ∉ st.memJobs) :
    cancelEncoding st fileId = (.ok false, st) := by
  unfold cancelEncoding
  rw [if_neg h]

/-- Witness for C6_theorem at a concrete input. -/
theorem C6_witness : cancelEncoding c1s0 "f9" = (.ok false, c1s0) :=
  C6_theorem c1s0 "f9" (by decide)

end VoxAula

namespace VoxAula

/-! ## Claim C10 — rejected encodeFile calls mutate the asset -/

theorem getFile_updateFile_ok (db db2 : MDB) (i : String) (u : FileUpdate)
    (h : db.updateFile i u = .ok db2) :
    db2.getFile i = (db.getFile i).map (fun f => f.applyUpdate u) := by
  obtain ⟨hf, -, -⟩ := updateFile_ok_parts _ _ _ _ h
  unfold MDB.getFile
  rw [hf]
  exact find?_replaceFirstFile_self _ _ _ (fun f => rfl)

theorem encodeCatch_spec (st : FFState) (i m : String)
    (h : (st.db.getFile i).isSome = true) :
    ((encodeCatch st i m).1.db.getFile i).map MFile.status = some FStatus.failed ∧
    ((encodeCatch st i m).1.db.getFile i).map MFile.error = some (some m) ∧
    (encodeCatch st i m).1.events = st.events ++ [FEvent.encodingFailed i m] ∧
    (encodeCatch st i m).2 = m := by
  cases hu : st.db.updateFile i { status := some .failed, error := some (some m) } with
  | error e =>
    exfalso
    rw [updateFile_of_isSome st.db i _ h] at hu
    cases hu
  | ok db1 =>
    have hg1 := getFile_updateFile_ok _ _ _ _ hu
    obtain ⟨f, hf⟩ := Option.isSome_iff_exists.mp h
    refine ⟨?_, ?_, by simp only [encodeCatch, hu], by simp only [encodeCatch, hu]⟩
    · simp only [encodeCatch, hu]
      rw [removeActiveJob_getFile, addLog_getFile_map, hg1, hf]; rfl
    · simp only [encodeCatch, hu]
      rw [removeActiveJob_getFile, addLog_getFile_map, hg1, hf]; rfl

end VoxAula

namespace VoxAula

/-- Claim C10: an `encodeFile` call rejected by an admission check — a job
already active for that fileId, or the running count already at the ceiling —
throws with that message, and additionally sets the existing asset's status to
failed with the error detail and emits an `encoding-failed` event: the
rejected call is not a pure no-op on the asset (in the duplicate-job case this
marks an asset failed while its original encode subprocess is still running). -/
theorem C10_theorem (st : FFState) (fileId : String) (se : Bool) (j m : String)
    (hadm : encodeAdmission st fileId = some m)
    (hex : (st.db.getFile fileId).isSome = true) :
    (encodeStart st fileId se j).1 = .error m ∧
    ((encodeStart st fileId se j).2.db.getFile fileId).map MFile.status = some FStatus.failed ∧
    ((encodeStart st fileId se j).2.db.getFile fileId).map MFile.error = some (some m) ∧
    (encodeStart st fileId se j).2.events = st.events ++ [FEvent.encodingFailed fileId m] := by
  obtain ⟨c1, c2, c3, c4⟩ := encodeCatch_spec st fileId m hex
  simp only [encodeStart, hadm]
  exact ⟨by rw [c4], c1, c2, c3⟩


/-- Witness for C10_theorem: a duplicate encode request for the asset already
being encoded. -/
theorem C10_witness :
    (encodeStart c10st "f1" true "j2").1 = .error "File is already being encoded" ∧
    ((encodeStart c10st "f1" true "j2").2.db.getFile "f1").map MFile.status = some FStatus.failed ∧
    ((encodeStart c10st "f1" true "j2").2.db.getFile "f1").map MFile.error =
      some (some "File is already being encoded") ∧
    (encodeStart c10st "f1" true "j2").2.events =
      [] ++ [FEvent.encodingFailed "f1" "File is already being encoded"] :=
  C10_theorem c10st "f1" true "j2" "File is already being encoded" (by decide) (by decide)

end VoxAula

namespace VoxAula

/-! ## Claim C3 — startup recovery of orphaned encoding assets -/

theorem getFile_isSome_iff (db : MDB) (i : String) :
    (db.getFile i).isSome = true ↔ i ∈ db.files.map MFile.id := by
  unfold MDB.getFile
  rw [List.find?_isSome]
  simp

theorem updateFile_ok_map_id (db db2 : MDB) (i : String) (u : FileUpdate)
    (h : db.updateFile i u = .ok db2) :
    db2.files.map MFile.id = db.files.map MFile.id := by
  obtain ⟨hf, -, -⟩ := updateFile_ok_parts _ _ _ _ h
  rw [hf]
  exact map_id_replaceFirstFile _ _ _ (fun f => rfl)

theorem addLog_map_id (db : MDB) (i m : String) :
    (db.addLog i m).files.map MFile.id = db.files.map MFile.id := by
  unfold MDB.addLog
  exact map_id_replaceFirstFile _ _ _ (fun f => rfl)

theorem addLog_getFile_ne (db : MDB) (i m j : String) (hij : j ≠ i) :
    (db.addLog i m).getFile j = db.getFile j := by
  unfold MDB.addLog MDB.getFile
  exact find?_replaceFirstFile_ne _ _ _ _ (fun f => rfl) hij

theorem updateFile_ok_getFile_ne (db db2 : MDB) (i : String) (u : FileUpdate) (j : String)
    (h : db.updateFile i u = .ok db2) (hij : j ≠ i) :
    db2.getFile j = db.getFile j := by
  obtain ⟨hf, -, -⟩ := updateFile_ok_parts _ _ _ _ h
  unfold MDB.getFile
  rw [hf]
  exact find?_replaceFirstFile_ne _ _ _ _ (fun f => rfl) hij

theorem recoveryLoop_map_id (l : List MFile) (db : MDB) :
    ((recoveryLoop db l).1).files.map MFile.id = db.files.map MFile.id := by
  induction l generalizing db with
  | nil => rfl
  | cons f rest ih =>
    unfold recoveryLoop
    cases hu : db.updateFile f.id
        { status := some .uploaded, progress := some 0, error := some (some resetNote) } with
    | error e => rfl
    | ok db1 =>
      rw [ih]
      rw [addLog_map_id]
      exact updateFile_ok_map_id _ _ _ _ hu

theorem recoveryLoop_success (l : List MFile) (db : MDB)
    (hpres : ∀ f ∈ l, f.id ∈ db.files.map MFile.id) :
    (recoveryLoop db l).2 = true := by
  induction l generalizing db with
  | nil => rfl
  | cons f rest ih =>
    unfold recoveryLoop
    have hs : (db.getFile f.id).isSome = true :=
      (getFile_isSome_iff db f.id).mpr (hpres f (List.mem_cons_self f rest))
    cases hu : db.updateFile f.id
        { status := some .uploaded, progress := some 0, error := some (some resetNote) } with
    | error e =>
      exfalso
      rw [updateFile_of_isSome db f.id _ hs] at hu
      cases hu
    | ok db1 =>
      apply ih
      intro g hg
      rw [addLog_map_id, updateFile_ok_map_id _ _ _ _ hu]
      exact hpres g (List.mem_cons_of_mem f hg)

theorem recoveryLoop_getFile_preserved (l : List MFile) (db : MDB) (i : String)
    (hni : i ∉ l.map MFile.id) :
    ((recoveryLoop db l).1).getFile i = db.getFile i := by
  induction l generalizing db with
  | nil => rfl
  | cons f rest ih =>
    have hne : i ≠ f.id := by
      intro e
      exact hni (by rw [List.map_cons, ← e]; exact List.mem_cons_self _ _)
    have hni2 : i ∉ rest.map MFile.id := by
      intro hmem; exact hni (by rw [List.map_cons]; exact List.mem_cons_of_mem _ hmem)
    unfold recoveryLoop
    cases hu : db.updateFile f.id
        { status := some .uploaded, progress := some 0, error := some (some resetNote) } with
    | error e => rfl
    | ok db1 =>
      rw [ih _ hni2, addLog_getFile_ne _ _ _ _ hne]
      exact updateFile_ok_getFile_ne _ _ _ _ _ hu hne

end VoxAula

namespace VoxAula

theorem recoveryLoop_resets (l : List MFile) (db : MDB)
    (hnd : (l.map MFile.id).Nodup)
    (hpres : ∀ f ∈ l, f.id ∈ db.files.map MFile.id) :
    ∀ f ∈ l,
      (((recoveryLoop db l).1).getFile f.id).map MFile.status = some FStatus.uploaded ∧
      (((recoveryLoop db l).1).getFile f.id).map MFile.error = some (some resetNote) := by
  induction l generalizing db with
  | nil => intro f hf; cases hf
  | cons f rest ih =>
    rw [List.map_cons, List.nodup_cons] at hnd
    obtain ⟨hhead, htail⟩ := hnd
    have hs : (db.getFile f.id).isSome = true :=
      (getFile_isSome_iff db f.id).mpr (hpres f (List.mem_cons_self f rest))
    intro g hg
    unfold recoveryLoop
    cases hu : db.updateFile f.id
        { status := some .uploaded, progress := some 0, error := some (some resetNote) } with
    | error e =>
      exfalso
      rw [updateFile_of_isSome db f.id _ hs] at hu
      cases hu
    | ok db1 =>
      rcases List.mem_cons.mp hg with hgf | hgrest
      · subst hgf
        rw [recoveryLoop_getFile_preserved rest _ _ hhead]
        rw [addLog_getFile_map]
        rw [getFile_updateFile_ok _ _ _ _ hu]
        obtain ⟨f0, hf0⟩ := Option.isSome_iff_exists.mp hs
        rw [hf0]
        exact ⟨rfl, rfl⟩
      · apply ih _ htail _ g hgrest
        intro g2 hg2
        rw [addLog_map_id, updateFile_ok_map_id _ _ _ _ hu]
        exact hpres g2 (List.mem_cons_of_mem f hg2)

end VoxAula

namespace VoxAula

/-- Claim C3 (amended): the startup recovery started by the constructor
resets, for every asset whose status is encoding but which has no active-job
record, that asset to uploaded with the restart diagnostic note and emits an
`encoding-reset` event for it (ids are unique in the catalog).  The
recovery is started exactly once, by the constructor — but it is started
without being awaited, so it is asynchronous and not guaranteed to complete
before the manager accepts new encode work (see `C3_counterexample`). -/
theorem C3_theorem (st : FFState) (hnd : (st.db.files.map MFile.id).Nodup) :
    (jobRecovery st).recoveryPending = false ∧
    ∀ f ∈ st.db.getIncompleteJobs,
      ((jobRecovery st).db.getFile f.id).map MFile.status = some FStatus.uploaded ∧
      ((jobRecovery st).db.getFile f.id).map MFile.error = some (some resetNote) ∧
      FEvent.encodingReset f.id ∈ (jobRecovery st).events := by
  have hsubl : (st.db.getIncompleteJobs.map MFile.id).Sublist (st.db.files.map MFile.id) :=
    (List.filter_sublist _).map _
  have hndl : (st.db.getIncompleteJobs.map MFile.id).Nodup := hnd.sublist hsubl
  have hpres : ∀ f ∈ st.db.getIncompleteJobs, f.id ∈ st.db.files.map MFile.id := by
    intro f hf
    exact List.mem_map.mpr ⟨f, List.mem_of_mem_filter hf, rfl⟩
  have hsucc := recoveryLoop_success st.db.getIncompleteJobs st.db hpres
  have hreset := recoveryLoop_resets st.db.getIncompleteJobs st.db hndl hpres
  cases hr : recoveryLoop st.db st.db.getIncompleteJobs with
  | mk db1 b =>
    rw [hr] at hsucc
    subst hsucc
    constructor
    · simp only [jobRecovery, hr]
    · intro f hf
      have h2 := hreset f hf
      rw [hr] at h2
      refine ⟨?_, ?_, ?_⟩
      · simp only [jobRecovery, hr]; exact h2.1
      · simp only [jobRecovery, hr]; exact h2.2
      · simp only [jobRecovery, hr]
        exact List.mem_append_right _ (List.mem_map.mpr ⟨f, hf, rfl⟩)

/-- Claim C3, counterexample to the ordering part: the constructor starts
`initializeJobRecovery()` without awaiting it, and nothing gates `encodeFile`
on its completion; in this reachable execution an encode call is admitted and
registered while the recovery task is still pending and the orphaned asset X
is still marked encoding.  The recovery is therefore neither synchronous nor
guaranteed to run before the manager accepts new encode work. -/
theorem C3_counterexample :
    (constructFF c3db 1).recoveryPending = true ∧
    ((constructFF c3db 1).db.getIncompleteJobs).map MFile.id = ["X"] ∧
    c3s1 = asyncStep (constructFF c3db 1) (.encode "Y" true "j1") ∧
    c3s1.recoveryPending = true ∧
    c3s1.memJobs = ["Y"] ∧
    (c3s1.db.getFile "X").map MFile.status = some FStatus.encoding := by
  decide

/-- Witness for C3_theorem at a concrete state. -/
theorem C3_witness :
    (jobRecovery (constructFF c3db 1)).recoveryPending = false ∧
    ((jobRecovery (constructFF c3db 1)).db.getFile "X").map MFile.status = some FStatus.uploaded ∧
    ((jobRecovery (constructFF c3db 1)).db.getFile "X").map MFile.error = some (some resetNote) ∧
    FEvent.encodingReset "X" ∈ (jobRecovery (constructFF c3db 1)).events := by
  have h := C3_theorem (constructFF c3db 1) (by decide)
  obtain ⟨h1, h2⟩ := h
  have h3 := h2 { id := "X", originalName := "x.mp3", originalPath := "/in/x.mp3", status := .encoding }
    (by decide)
  exact ⟨h1, h3.1, h3.2.1, h3.2.2⟩

end VoxAula

namespace VoxAula

/-- Claim C9, counterexample: `addFile` never checks for an existing record
with the same source path, and `getFileByPath` returns the first match, so
adding a second record under an already-registered path makes the round trip
return the id of the old record, not the one `addFile` just returned. -/
theorem C9_counterexample :
    ((c9db.addFile "B" "b.mp3" "/p").1.id = "B") ∧
    (((c9db.addFile "B" "b.mp3" "/p").2.getFileByPath "/p").map MFile.id = some "A") ∧
    ("A" : String) ≠ "B" := by
  refine ⟨rfl, rfl, by decide⟩

/-- Claim C9 (amended): for every record added via addFile, provided no earlier
record holds the same source path, a subsequent getFileByPath with that path
returns a record with the id addFile returned. -/
theorem C9_theorem (db : MDB) (fileId nm p : String)
    (h : db.getFileByPath p = none) :
    (((db.addFile fileId nm p).2).getFileByPath p).map MFile.id = some fileId := by
  unfold MDB.getFileByPath at h
  simp only [MDB.addFile, MDB.getFileByPath, List.find?_append, h, Option.none_or]
  simp

/-- Witness for C9_theorem at a concrete input. -/
theorem C9_witness :
    ((((MDB.addFile {} "B" "b.mp3" "/p").2).getFileByPath "/p").map MFile.id = some "B") :=
  C9_theorem {} "B" "b.mp3" "/p" rfl


end VoxAula

namespace VoxAula

/-! ## Claims C2 and C5 — the playback sequencer -/

/-- Claim C2: with maxConsecutiveSkips = 5, a run of five consecutive track
failures — here a five-track playlist whose files are all missing on disk,
played from index 0 with the skip counter at 0, so the counter is never reset
in between — drives playback to stopped and emits exactly one stop event
(`radio-stopped`), after the five `radio-track-error` events. -/
theorem C2_theorem (t1 t2 t3 t4 t5 : Track) (s : RState)
    (hb1 : t1.onDisk = false) (hb2 : t2.onDisk = false) (hb3 : t3.onDisk = false)
    (hb4 : t4.onDisk = false) (hb5 : t5.onDisk = false)
    (hrun : s.isRunning = true) (hstop : s.isStopping = false)
    (hpl : s.playlist = [t1, t2, t3, t4, t5])
    (hidx : s.currentIndex = 0) (hskip : s.skipCount = 0)
    (hmax : s.maxConsecutiveSkips = 5) :
    (playN 6 s).isRunning = false ∧
    (playN 6 s).isStopping = false ∧
    (playN 6 s).status = RStatus.stopped ∧
    (playN 6 s).events = s.events ++
      [REvent.radioTrackError t1.id 1, REvent.radioTrackError t2.id 2,
       REvent.radioTrackError t3.id 3, REvent.radioTrackError t4.id 4,
       REvent.radioTrackError t5.id 5, REvent.radioStopped] ∧
    (playN 6 s).events.count REvent.radioStopped = s.events.count REvent.radioStopped + 1 := by
  obtain ⟨run, stp, pl, idx, ct, sk, mx, ff, rtp, st0, tw, ev⟩ := s
  simp only at hrun hstop hpl hidx hskip hmax
  subst hrun hstop hpl hidx hskip hmax
  refine ⟨?_, ?_, ?_, ?_, ?_⟩ <;>
    simp [playN, playNextTrack, spawnFFmpegForTrack, handleTrackError, rstop,
      hb1, hb2, hb3, hb4, hb5, List.count_append, List.count_cons]

end VoxAula

namespace VoxAula



/-- Witness for C2_theorem at a concrete five-track playlist. -/
theorem C2_witness :
    (playN 6 c2s).isRunning = false ∧
    (playN 6 c2s).isStopping = false ∧
    (playN 6 c2s).status = RStatus.stopped ∧
    (playN 6 c2s).events = c2s.events ++
      [REvent.radioTrackError "a" 1, REvent.radioTrackError "b" 2,
       REvent.radioTrackError "c" 3, REvent.radioTrackError "d" 4,
       REvent.radioTrackError "e" 5, REvent.radioStopped] ∧
    (playN 6 c2s).events.count REvent.radioStopped = c2s.events.count REvent.radioStopped + 1 :=
  C2_theorem (badTrack "a") (badTrack "b") (badTrack "c") (badTrack "d") (badTrack "e") c2s
    rfl rfl rfl rfl rfl rfl rfl rfl rfl rfl rfl


/-- Claim C5: start() called while the sequencer is already running returns
success false with no state change and no protocol-client call — in
particular no second remote session is opened. -/
theorem C5_theorem (s : RState) (jr : Except String RtpTarget) (v : List Track)
    (h : s.isRunning = true) :
    rstart s jr v = ((false, "Radio is already running"), s, []) := by
  unfold rstart
  rw [if_pos h]

/-- Witness for C5_theorem at a concrete running state. -/
theorem C5_witness :
    rstart c5s (.ok { ip := "185.80.51.95", port := 50001, ssrc := 9 }) [badTrack "a"] =
      ((false, "Radio is already running"), c5s, []) :=
  C5_theorem c5s _ _ rfl

end VoxAula

namespace VoxAula

/-! ## Claims C4 and C7 — the protocol client -/

theorem pollForEvent_timeout (tid : String) (polls : List PollAns)
    (h : ∀ d, PollAns.eventFor tid d ∉ polls) :
    pollForEvent tid polls = .error "Timeout waiting for join event (30000ms)" := by
  induction polls with
  | nil => rfl
  | cons p rest ih =>
    have hrest : ∀ d, PollAns.eventFor tid d ∉ rest :=
      fun d hd => h d (List.mem_cons_of_mem _ hd)
    cases p with
    | eventFor t dat =>
      have hne : ¬ (t = tid) := by
        intro e; subst e; exact h dat (List.mem_cons_self _ _)
      simp [pollForEvent, hne, ih hrest]
    | noContent => simp [pollForEvent, ih hrest]
    | otherAnswer => simp [pollForEvent, ih hrest]
    | pollFail => simp [pollForEvent, ih hrest]

/-- Claim C4 (amended): when the gateway acknowledges the join request but no
event matching the join's transaction id arrives within the 30-second
deadline, the session establishment fails with the handshake-timeout error —
so `start()` fails with that error — and teardown on the partially-built
session attempts the destroy request but not the leave request: the leave is
guarded by a participant id, which the timed-out handshake never produced. -/
theorem C4_theorem (st : JState) (roomId ip : String) (ssrc : Nat) (tid : String)
    (g : GatewayScript) (si hi : Nat)
    (hc : g.createAns = JAns.success si)
    (ha : g.attachAns = JAns.success hi)
    (hj : g.joinAns = JAns.ack)
    (hpoll : ∀ d, PollAns.eventFor tid d ∉ g.polls)
    (hpart : st.participantId = none) :
    (establishSession st roomId ip ssrc tid g).1 =
      .error "Janus connection failed: Room join failed: Timeout waiting for join event (30000ms)" ∧
    (establishSession st roomId ip ssrc tid g).2.requests =
      st.requests ++ [JReq.createReq, JReq.attachReq, JReq.joinReq, JReq.destroyReq] ∧
    (establishSession st roomId ip ssrc tid g).2.sessionId = none := by
  have hp := pollForEvent_timeout tid g.polls hpoll
  refine ⟨?_, ?_, ?_⟩ <;>
    simp [establishSession, createSession, attachPlugin, joinRoom, hc, ha, hj, hp,
      cleanup, stopKeepalive, hpart]

end VoxAula

namespace VoxAula

/-- Claim C4, counterexample to the "both leave and destroy" part: with the
join acknowledged and no matching event within the deadline, the run issues
create, attach, join and destroy requests — and no leave request, because
`cleanup` only attempts leave when a participant id exists, which the
timed-out handshake never produced.  The claim that both the leave request
and the destroy request are attempted is therefore false on this input. -/
theorem C4_counterexample :
    c4run.1 =
      .error "Janus connection failed: Room join failed: Timeout waiting for join event (30000ms)" ∧
    c4run.2.requests = [JReq.createReq, JReq.attachReq, JReq.joinReq, JReq.destroyReq] ∧
    JReq.leaveReq ∉ c4run.2.requests ∧
    c4run.2.sessionId = none := by
  refine ⟨rfl, by decide, by decide, by decide⟩

/-- Witness for C4_theorem at the concrete gateway script. -/
theorem C4_witness :
    (establishSession {} "3183360752998701" "185.80.51.95" 1234 "t1" c4g).1 =
      .error "Janus connection failed: Room join failed: Timeout waiting for join event (30000ms)" ∧
    (establishSession {} "3183360752998701" "185.80.51.95" 1234 "t1" c4g).2.requests =
      ([] : List JReq) ++ [JReq.createReq, JReq.attachReq, JReq.joinReq, JReq.destroyReq] ∧
    (establishSession {} "3183360752998701" "185.80.51.95" 1234 "t1" c4g).2.sessionId = none :=
  C4_theorem {} "3183360752998701" "185.80.51.95" 1234 "t1" c4g 11 22 rfl rfl rfl
    (by intro d hd; simp [c4g] at hd) rfl

theorem runKeepalives_cons (st : JState) (a : JAns) (rest : List JAns) :
    runKeepalives st (a :: rest) = runKeepalives (sendKeepalive st a) rest := rfl

/-- Claim C7: for every sequence of failing keepalive attempts (of any
length), the client only counts the failures and issues keepalive requests —
every session identifier and the RTP destination are untouched, no leave or
destroy request is issued, and the failure counter grows by the number of
failures.  Teardown is reachable only through `cleanup`, which only explicit
stop paths and `establishSession` failures invoke. -/
theorem C7_theorem (st : JState) (anss : List JAns)
    (hsess : st.sessionId.isSome = true)
    (hfail : ∀ a ∈ anss, a ≠ JAns.ack) :
    (runKeepalives st anss).sessionId = st.sessionId ∧
    (runKeepalives st anss).handleId = st.handleId ∧
    (runKeepalives st anss).participantId = st.participantId ∧
    (runKeepalives st anss).rtpDetails = st.rtpDetails ∧
    (runKeepalives st anss).keepaliveFailureCount = st.keepaliveFailureCount + anss.length ∧
    (runKeepalives st anss).requests = st.requests ++ List.replicate anss.length JReq.keepaliveReq := by
  induction anss generalizing st with
  | nil => simp [runKeepalives]
  | cons a rest ih =>
    obtain ⟨si, hsi⟩ := Option.isSome_iff_exists.mp hsess
    have ha : a ≠ JAns.ack := hfail a (List.mem_cons_self _ _)
    have hrest : ∀ x ∈ rest, x ≠ JAns.ack := fun x hx => hfail x (List.mem_cons_of_mem _ hx)
    have hsk : sendKeepalive st a =
        { st with requests := st.requests ++ [JReq.keepaliveReq]
                  keepaliveFailureCount := st.keepaliveFailureCount + 1 } := by
      unfold sendKeepalive
      rw [hsi]
      cases a with
      | ack => exact absurd rfl ha
      | success i => rfl
      | eventAns d => rfl
      | errorAns r => rfl
      | transportFail s2 => rfl
    have hsess2 : (sendKeepalive st a).sessionId.isSome = true := by
      rw [hsk]; dsimp only; rw [hsi]; rfl
    obtain ⟨e1, e2, e3, e4, e5, e6⟩ := ih (sendKeepalive st a) hsess2 hrest
    rw [runKeepalives_cons]
    refine ⟨?_, ?_, ?_, ?_, ?_, ?_⟩
    · rw [e1, hsk]
    · rw [e2, hsk]
    · rw [e3, hsk]
    · rw [e4, hsk]
    · rw [e5, hsk]; dsimp only; rw [List.length_cons]; omega
    · rw [e6, hsk]; dsimp only
      rw [List.length_cons, List.replicate_succ]
      simp [List.append_assoc]


/-- Witness for C7_theorem: two consecutive keepalive transport failures. -/
theorem C7_witness :
    (runKeepalives c7st [JAns.transportFail none, JAns.errorAns "x"]).sessionId = c7st.sessionId ∧
    (runKeepalives c7st [JAns.transportFail none, JAns.errorAns "x"]).handleId = c7st.handleId ∧
    (runKeepalives c7st [JAns.transportFail none, JAns.errorAns "x"]).participantId = c7st.participantId ∧
    (runKeepalives c7st [JAns.transportFail none, JAns.errorAns "x"]).rtpDetails = c7st.rtpDetails ∧
    (runKeepalives c7st [JAns.transportFail none, JAns.errorAns "x"]).keepaliveFailureCount =
      c7st.keepaliveFailureCount + 2 ∧
    (runKeepalives c7st [JAns.transportFail none, JAns.errorAns "x"]).requests =
      c7st.requests ++ List.replicate 2 JReq.keepaliveReq :=
  C7_theorem c7st [JAns.transportFail none, JAns.errorAns "x"] rfl (by decide)

end VoxAula

namespace VoxAula

/-! ## Claim C8 — adaptive interval selection -/

/-- Claim C8: the adaptive interval, recomputed by
`performAdaptiveDirectoryScan` before scheduling every next cycle, equals the
spec's priority-ordered selection — disabled if the watcher is off, the slow
encoding-active interval if the job manager reports active encoding, the fast
high-activity interval if recent activity is flagged, normal otherwise — and
is always one of those four configured intervals. -/
theorem C8_theorem (st : ImpState) (d : DirType) :
    calculateAdaptiveInterval st d =
      specAdaptiveInterval st.intervals (watcherEnabled st d) st.encodingActive
        (recentActivityFlag st d) ∧
    (calculateAdaptiveInterval st d = st.intervals.disabled ∨
     calculateAdaptiveInterval st d = st.intervals.encodingActive ∨
     calculateAdaptiveInterval st d = st.intervals.highActivity ∨
     calculateAdaptiveInterval st d = st.intervals.normal) := by
  obtain ⟨a, b, r1, r2, iv, enc⟩ := st
  cases d <;> cases a <;> cases b <;> cases r1 <;> cases r2 <;> cases enc <;>
    simp [calculateAdaptiveInterval, specAdaptiveInterval, watcherEnabled, recentActivityFlag]

end VoxAula
